import Mathlib

/-!
Verification development for the pdf-art-extractor service (src/index.js).

The core logic of the repository is regex-driven SVG text manipulation plus
rational coordinate arithmetic.  We embed it shallowly:

* JS numbers are modelled as rationals (the code only adds, subtracts,
  multiplies and divides caller-supplied finite decimals, and the spec
  reasons in exact real arithmetic); `toNum` maps a missing or non-finite
  form field to `undefined`, modelled as `none : Option Rat`.
* Each regular expression of the source is implemented as an explicit
  character-level scanner with the exact matching discipline of the JS
  engine on that pattern (leftmost match, advance one character on failure,
  greedy character classes, lazy inner content in `extractInnerSvg`).
  Character classes are taken at their ASCII meaning.
* The JS object used for attribute maps is modelled as an insertion-ordered
  association list: assigning an existing key updates its value in place,
  assigning a fresh key appends it.
* Number-to-string interpolation in template literals is modelled by the
  `toString` of `Rat` (identical to JS output on the integral values used
  by the spec examples).
-/

namespace PdfArt

/-- The ASCII part of the JS regex class `\s`. -/
def isSpace (c : Char) : Bool :=
  c = ' ' || c = '\t' || c = '\n' || c = '\r' || c = '\x0c' || c = '\x0b'

/-- The JS regex class `\d`. -/
def isDigit (c : Char) : Bool := '0' ≤ c && c ≤ '9'

/-- The ASCII part of the JS regex class `\w`. -/
def isWordChar (c : Char) : Bool :=
  ('a' ≤ c && c ≤ 'z') || ('A' ≤ c && c ≤ 'Z') || isDigit c || c = '_'

/-- ASCII lowering, the case folding relevant to the `/i` regex flag here. -/
def lowChar (c : Char) : Char :=
  if 'A' ≤ c ∧ c ≤ 'Z' then Char.ofNat (c.toNat + 32) else c

/-- Case-insensitive match of a literal pattern at the head of the input;
returns the rest of the input on success. -/
def matchCI : List Char → List Char → Option (List Char)
  | [], s => some s
  | _ :: _, [] => none
  | p :: ps, c :: cs => if lowChar p = lowChar c then matchCI ps cs else none

/-- Case-insensitive equality of strings (the effect of comparing
`toLowerCase()` results in the source). -/
def eqCI (a b : String) : Bool :=
  match matchCI a.toList b.toList with
  | some [] => true
  | _ => false

/-- Numeric value of a digit run. -/
def digitsVal (ds : List Char) : Nat :=
  ds.foldl (fun n c => 10 * n + (c.toNat - 48)) 0

/-- Scan `\d+`; returns value, number of digits and rest. -/
def scanDigits (s : List Char) : Option (Nat × Nat × List Char) :=
  let ds := s.takeWhile isDigit
  if ds.isEmpty then none
  else some (digitsVal ds, ds.length, s.dropWhile isDigit)

/-- Scan `\d+(?:\.\d+)?` as an exact rational. -/
def scanUDec (s : List Char) : Option (Rat × List Char) :=
  match scanDigits s with
  | none => none
  | some (ip, _, r1) =>
    match r1 with
    | '.' :: r2 =>
      match scanDigits r2 with
      | some (fp, k, r3) => some ((ip : Rat) + (fp : Rat) / ((10 : Rat) ^ k), r3)
      | none => some ((ip : Rat), '.' :: r2)
    | _ => some ((ip : Rat), r1)

/-- Scan `-?\d+(?:\.\d+)?`. -/
def scanSDec (s : List Char) : Option (Rat × List Char) :=
  match s with
  | '-' :: r => (scanUDec r).map (fun p => (-p.1, p.2))
  | _ => scanUDec s

/-- Require at least one `\s`, then consume the whole run. -/
def reqSpace (s : List Char) : Option (List Char) :=
  match s with
  | c :: r => if isSpace c then some (r.dropWhile isSpace) else none
  | [] => none

/-- Parsed `viewBox` attribute: `minX minY width height`. -/
structure ViewBox where
  minX : Rat
  minY : Rat
  width : Rat
  height : Rat
deriving DecidableEq, Repr

/-- Expect one fixed character at the head of the input. -/
def expectChar (c : Char) (s : List Char) : Option (List Char) :=
  match s with
  | c2 :: r => if c2 = c then some r else none
  | [] => none

/-- Tail of the `getViewBox` regex after the literal `viewBox`:
`\s*=\s*"(\s*-?\d+(?:\.\d+)?)\s+(\s*-?\d+(?:\.\d+)?)\s+(\d+(?:\.\d+)?)\s+(\d+(?:\.\d+)?)`. -/
def tryViewBoxTail (s : List Char) : Option ViewBox := do
  let s2 ← expectChar '=' (s.dropWhile isSpace)
  let s4 ← expectChar '"' (s2.dropWhile isSpace)
  let (minX, r1) ← scanSDec (s4.dropWhile isSpace)
  let r2 ← reqSpace r1
  let (minY, r3) ← scanSDec (r2.dropWhile isSpace)
  let r4 ← reqSpace r3
  let (w, r5) ← scanUDec r4
  let r6 ← reqSpace r5
  let (h, _) ← scanUDec r6
  some ⟨minX, minY, w, h⟩

/-- Leftmost-match scan of the `getViewBox` regex over the whole string:
the engine tries the pattern at every start position in order. -/
def getViewBoxAux : List Char → Option ViewBox
  | [] => none
  | c :: rest =>
    match (matchCI "viewbox".toList (c :: rest)).bind tryViewBoxTail with
    | some vb => some vb
    | none => getViewBoxAux rest

/-- `getViewBox` of src/index.js: parse the first occurrence of
`viewBox="minX minY width height"` anywhere in the document text. -/
def getViewBox (s : String) : Option ViewBox :=
  getViewBoxAux s.toList

/-- Consume `[^>]*>`: everything up to and including the next `>`. -/
def dropToGt (s : List Char) : Option (List Char) :=
  match s.dropWhile (fun c => ¬ c = '>') with
  | '>' :: r => some r
  | _ => none

/-- `stripXmlDecl` of src/index.js: remove a leading
`\s*<\?xml[^>]*>\s*` prologue when present. -/
def stripXmlDeclL (s : List Char) : List Char :=
  match matchCI "<?xml".toList (s.dropWhile isSpace) with
  | none => s
  | some r1 =>
    match dropToGt r1 with
    | none => s
    | some r2 => r2.dropWhile isSpace

def stripXmlDecl (s : String) : String := ⟨stripXmlDeclL s.toList⟩

/-- Try `<svg\b([^>]*)>` at the head of the input; on success return the
attribute characters and the rest after `>`. -/
def svgOpenAt (s : List Char) : Option (List Char × List Char) :=
  match matchCI "<svg".toList s with
  | none => none
  | some r =>
    if (match r.head? with
        | none => true
        | some c => ¬ isWordChar c) then
      match r.dropWhile (fun c => ¬ c = '>') with
      | '>' :: rest => some (r.takeWhile (fun c => ¬ c = '>'), rest)
      | _ => none
    else none

/-- Leftmost occurrence of `<svg\b([^>]*)>`. -/
def findSvgTagAux : List Char → Option (List Char × List Char)
  | [] => none
  | c :: rest =>
    match svgOpenAt (c :: rest) with
    | some x => some x
    | none => findSvgTagAux rest

/-- JS regex name class `[:\w.-]`. -/
def isNameChar (c : Char) : Bool :=
  c = ':' || isWordChar c || c = '.' || c = '-'

/-- Try the attribute regex (a name of colon, word, dot or hyphen
characters, an equals sign with optional whitespace, then a double-quoted
or single-quoted value) at the head of the input; the quotes are stripped
from the value as in the source. -/
def matchAttrAt (s : List Char) : Option (String × String × List Char) :=
  let name := s.takeWhile isNameChar
  if name.isEmpty then none
  else
    match (s.dropWhile isNameChar).dropWhile isSpace with
    | '=' :: r2 =>
      match r2.dropWhile isSpace with
      | '"' :: r4 =>
        (match r4.dropWhile (fun c => ¬ c = '"') with
         | '"' :: r5 => some (⟨name⟩, ⟨r4.takeWhile (fun c => ¬ c = '"')⟩, r5)
         | _ => none)
      | '\'' :: r4 =>
        (match r4.dropWhile (fun c => ¬ c = '\'') with
         | '\'' :: r5 => some (⟨name⟩, ⟨r4.takeWhile (fun c => ¬ c = '\'')⟩, r5)
         | _ => none)
      | _ => none
    | _ => none

/-- Repeated global scan with the attribute regex (fuel-indexed to keep the
recursion structural; the fuel is set to the input length, which bounds the
number of scan steps since every step consumes at least one character). -/
def scanAttrsF : Nat → List Char → List (String × String)
  | 0, _ => []
  | _ + 1, [] => []
  | fuel + 1, c :: rest =>
    match matchAttrAt (c :: rest) with
    | some (n, v, r) => (n, v) :: scanAttrsF fuel r
    | none => scanAttrsF fuel rest

/-- JS object assignment `map[name] = val`: update in place when the key
exists, append otherwise. -/
def jsUpsert (l : List (String × String)) (k v : String) : List (String × String) :=
  if (l.find? (fun p => p.1 = k)).isSome then
    l.map (fun p => if p.1 = k then (p.1, v) else p)
  else l ++ [(k, v)]

/-- `parseRootAttrs` of src/index.js: attribute map of the first
`<svg ...>` tag, as an insertion-ordered association list with JS object
duplicate semantics. -/
def parseRootAttrsL (s : List Char) : List (String × String) :=
  match findSvgTagAux s with
  | none => []
  | some (attr, _) =>
    (scanAttrsF attr.length attr).foldl (fun m p => jsUpsert m p.1 p.2) []

def parseRootAttrs (s : String) : List (String × String) :=
  parseRootAttrsL s.toList

/-- Does `</svg\s*>` match at the head of the input? -/
def closeAt (s : List Char) : Bool :=
  match matchCI "</svg".toList s with
  | none => false
  | some r =>
    match r.dropWhile isSpace with
    | '>' :: _ => true
    | _ => false

/-- Lazy `([\s\S]*?)<\/svg\s*>`: the content before the first closing tag. -/
def findClose : List Char → Option (List Char)
  | [] => none
  | c :: rest =>
    if closeAt (c :: rest) then some []
    else (findClose rest).map (fun l => c :: l)

/-- `extractInnerSvg` of src/index.js: leftmost match of
`<svg\b[^>]*>([\s\S]*?)<\/svg\s*>`; `none` models the thrown
`Input is not a valid SVG document` error. -/
def extractInnerAux : List Char → Option (List Char)
  | [] => none
  | c :: rest =>
    match svgOpenAt (c :: rest) with
    | some (_, after) =>
      match findClose after with
      | some inner => some inner
      | none => extractInnerAux rest
    | none => extractInnerAux rest

def extractInnerSvg (s : String) : Option String :=
  (extractInnerAux s.toList).map (fun l => ⟨l⟩)

/-- The default SVG namespace injected by the cropper. -/
def svgNS : String := "http://www.w3.org/2000/svg"

/-- The default xlink namespace injected by the cropper. -/
def xlinkNS : String := "http://www.w3.org/1999/xlink"

/-- The attribute-name filter of the cropper:
`lk === 'xmlns' || lk.startsWith('xmlns:') || lk.startsWith('xml:')`
on the lowercased name. -/
def nsFilter (k : String) : Bool :=
  eqCI k "xmlns" || (matchCI "xmlns:".toList k.toList).isSome
    || (matchCI "xml:".toList k.toList).isSome

/-- JS truthiness test `!ns[k]`: the key is absent, or its value is the
empty string. -/
def jsAbsent (l : List (String × String)) (k : String) : Bool :=
  match l.find? (fun p => p.1 = k) with
  | none => true
  | some p => p.2 = ""

/-- One step of the namespace-copy loop of `cropSvgString`. -/
def nsStep (m : List (String × String)) (p : String × String) : List (String × String) :=
  if nsFilter p.1 && jsAbsent m p.1 then jsUpsert m p.1 p.2 else m

/-- The namespace map assembled by `cropSvgString`: the two defaults, then
every `xmlns`/`xmlns:*`/`xml:*` source attribute that does not collide with
a (truthy) existing entry, then `xml:space="preserve"` when that key is
still absent. -/
def buildNs (attrs : List (String × String)) : List (String × String) :=
  let ns := attrs.foldl nsStep [("xmlns", svgNS), ("xmlns:xlink", xlinkNS)]
  if (ns.find? (fun p => p.1 = "xml:space")).isSome then ns
  else ns ++ [("xml:space", "preserve")]

/-- The namespace attribute list the cropper emits for a given source page. -/
def outputNs (page : String) : List (String × String) :=
  buildNs (parseRootAttrs (stripXmlDecl page))

/-- Serialisation `k="v"` joined by single spaces, as in the source. -/
def nsAttrString (attrs : List (String × String)) : String :=
  String.intercalate " " ((buildNs attrs).map (fun p => p.1 ++ "=\"" ++ p.2 ++ "\""))

/-- Template-literal rendering of a JS number, modelled on `Rat`. -/
def numStr (q : Rat) : String := toString q

/-- The distinct failure conditions of the crop pipeline, one constructor
per distinct error produced by src/index.js. -/
inductive CropError where
  | missingCoords
  | invalidBox
  | outOfRange (page : Int) (count : Nat)
  | noViewBoxRoute
  | noViewBoxCrop
  | zeroBox
  | malformedSvg
deriving DecidableEq, Repr

/-- The error strings of src/index.js for each failure condition. -/
def CropError.message : CropError → String
  | .missingCoords => "Missing or invalid x1,y1,x2,y2"
  | .invalidBox => "Invalid crop box: ensure x2>x1 and y2>y1"
  | .outOfRange p n => "Page " ++ toString p ++ " out of range (has " ++ toString n ++ ")"
  | .noViewBoxRoute => "Could not read page viewBox"
  | .noViewBoxCrop => "viewBox not found on page SVG"
  | .zeroBox => "Invalid crop box: zero width/height"
  | .malformedSvg => "Input is not a valid SVG document"

/-- `cropSvgString` of src/index.js (the final variant, with the
minX/minY-corrected translation). Thrown errors are modelled by `Except`. -/
def cropSvgString (fullPageSvg : String) (x1 y1 x2 y2 : Rat) :
    Except CropError String :=
  match getViewBox fullPageSvg with
  | none => .error .noViewBoxCrop
  | some vb =>
    let w := max 0 (x2 - x1)
    let h := max 0 (y2 - y1)
    if w = 0 ∨ h = 0 then .error .zeroBox
    else
      let src := stripXmlDecl fullPageSvg
      let attrs := parseRootAttrs src
      match extractInnerSvg src with
      | none => .error .malformedSvg
      | some inner =>
        let dx := -(vb.minX + x1)
        let dy := -(vb.minY + y1)
        .ok ("<svg " ++ nsAttrString attrs ++ " viewBox=\"0 0 " ++ numStr w ++ " "
          ++ numStr h ++ "\" preserveAspectRatio=\"xMidYMid meet\">"
          ++ "<g transform=\"translate(" ++ numStr dx ++ "," ++ numStr dy ++ ")\">"
          ++ inner ++ "</g></svg>")

/-- A mapped rectangle in SVG units. -/
structure Box where
  x1 : Rat
  y1 : Rat
  x2 : Rat
  y2 : Rat
deriving DecidableEq, Repr

/-- The input rectangle of `mapBoxToSvg`; `none` components model
`undefined` coordinates (defaulted with `?? 0` in the source). -/
structure InBox where
  x1 : Option Rat
  y1 : Option Rat
  x2 : Option Rat
  y2 : Option Rat
deriving DecidableEq, Repr

/-- The scale factor `raster && raster > 0 ? svgDim / raster : 1`. -/
def scaleFactor (raster : Option Rat) (svgDim : Rat) : Rat :=
  match raster with
  | some r => if 0 < r then svgDim / r else 1
  | none => 1

/-- Is the effective origin tag `topleft`? The source lowercases and
defaults the string: `(origin || 'pdf').toLowerCase() === 'topleft'`;
we fold the lowercasing into a case-insensitive comparison. -/
def originTopLeft (origin : String) : Bool :=
  eqCI (if origin = "" then "pdf" else origin) "topleft"

/-- `mapBoxToSvg` of src/index.js: optional raster scaling, defensive
order normalisation, then a Y flip only for the `topleft` origin. -/
def mapBoxToSvg (r : InBox) (origin : String) (rasterW rasterH : Option Rat)
    (svgW svgH : Rat) : Box :=
  let sx := scaleFactor rasterW svgW
  let sy := scaleFactor rasterH svgH
  let X1 := (r.x1.getD 0) * sx
  let X2 := (r.x2.getD 0) * sx
  let Y1 := (r.y1.getD 0) * sy
  let Y2 := (r.y2.getD 0) * sy
  let X1' := if X2 < X1 then X2 else X1
  let X2' := if X2 < X1 then X1 else X2
  let Y1' := if Y2 < Y1 then Y2 else Y1
  let Y2' := if Y2 < Y1 then Y1 else Y2
  if originTopLeft origin then
    ⟨X1', svgH - Y2', X2', svgH - Y1'⟩
  else
    ⟨X1', Y1', X2', Y2'⟩

/-- Page selection of the `/extract-svg-crop` route (lines 196-200):
1-based index check and lookup. -/
def selectPage (pages : List String) (page : Int) : Except CropError String :=
  let pageIdx := page - 1
  if pageIdx < 0 ∨ (pages.length : Int) ≤ pageIdx then
    .error (.outOfRange page pages.length)
  else .ok (pages.getD pageIdx.toNat "")

/-- The JSON payload of a successful crop request (the string fields the
claims are about). -/
structure CropResult where
  svg : String
  page : Int
  svgViewBox : ViewBox
  coordsSvg : Box
deriving DecidableEq, Repr

/-- The pure core of the `/extract-svg-crop` route, after the upload
handling and with the external renderer output supplied as `pages`:
validation, page selection, viewBox parsing, coordinate mapping, crop.
Coordinates arrive through `toNum`, so a missing or non-finite form field
is `none`. -/
def processCrop (pages : List String) (page : Int)
    (x1 y1 x2 y2 : Option Rat) (coordsOrigin : String)
    (rasterW rasterH : Option Rat) : Except CropError CropResult :=
  match x1, y1, x2, y2 with
  | some a, some b, some c, some d =>
    if c > a ∧ d > b then
      match selectPage pages page with
      | .error e => .error e
      | .ok fullPageSvg =>
        match getViewBox fullPageSvg with
        | none => .error .noViewBoxRoute
        | some vb =>
          let mapped := mapBoxToSvg ⟨some a, some b, some c, some d⟩
            coordsOrigin rasterW rasterH vb.width vb.height
          match cropSvgString fullPageSvg mapped.x1 mapped.y1 mapped.x2 mapped.y2 with
          | .error e => .error e
          | .ok s => .ok ⟨s, page, vb, mapped⟩
    else .error .invalidBox
  | _, _, _, _ => .error .missingCoords

/-! ## Helper lemmas -/

theorem originTopLeft_pdf : originTopLeft "pdf" = false := rfl

theorem originTopLeft_topleft : originTopLeft "topleft" = true := rfl

/-- Closed form of the mapper: scaling, then order normalisation written
with min and max, then the optional flip. -/
theorem mapBoxToSvg_minmax (a b c d svgW svgH : Rat) (rw rh : Option Rat)
    (origin : String) :
    mapBoxToSvg ⟨some a, some b, some c, some d⟩ origin rw rh svgW svgH =
      (if originTopLeft origin then
        Box.mk (min (a * scaleFactor rw svgW) (c * scaleFactor rw svgW))
          (svgH - max (b * scaleFactor rh svgH) (d * scaleFactor rh svgH))
          (max (a * scaleFactor rw svgW) (c * scaleFactor rw svgW))
          (svgH - min (b * scaleFactor rh svgH) (d * scaleFactor rh svgH))
      else
        Box.mk (min (a * scaleFactor rw svgW) (c * scaleFactor rw svgW))
          (min (b * scaleFactor rh svgH) (d * scaleFactor rh svgH))
          (max (a * scaleFactor rw svgW) (c * scaleFactor rw svgW))
          (max (b * scaleFactor rh svgH) (d * scaleFactor rh svgH))) := by
  unfold mapBoxToSvg
  simp only [Option.getD_some]
  rcases lt_or_ge (c * scaleFactor rw svgW) (a * scaleFactor rw svgW) with h1 | h1 <;>
    rcases lt_or_ge (d * scaleFactor rh svgH) (b * scaleFactor rh svgH) with h2 | h2
  · simp only [if_pos h1, if_pos h2,
      min_eq_right h1.le, max_eq_left h1.le, min_eq_right h2.le, max_eq_left h2.le]
  · simp only [if_pos h1, if_neg (not_lt.2 h2),
      min_eq_right h1.le, max_eq_left h1.le, min_eq_left h2, max_eq_right h2]
  · simp only [if_neg (not_lt.2 h1), if_pos h2,
      min_eq_left h1, max_eq_right h1, min_eq_right h2.le, max_eq_left h2.le]
  · simp only [if_neg (not_lt.2 h1), if_neg (not_lt.2 h2),
      min_eq_left h1, max_eq_right h1, min_eq_left h2, max_eq_right h2]

/-! ## Claims -/

/-- C2: the coordinate mapper computes per-axis scale factors
`sx = svgW / rasterW` when the raster dimension is supplied and positive
(`1` otherwise), scales all four coordinates, swaps a reversed scaled pair
(written as min and max), and flips the Y axis with
`y1 = svgH - y2max`, `y2 = svgH - y1min` exactly when the origin tag is
`topleft`, with no flip for `pdf`. -/
theorem C2_mapBoxToSvg (a b c d svgW svgH : Rat) (rw rh : Option Rat)
    (origin : String) (horigin : origin = "pdf" ∨ origin = "topleft") :
    (mapBoxToSvg ⟨some a, some b, some c, some d⟩ origin rw rh svgW svgH =
      (if origin = "topleft" then
        Box.mk (min (a * scaleFactor rw svgW) (c * scaleFactor rw svgW))
          (svgH - max (b * scaleFactor rh svgH) (d * scaleFactor rh svgH))
          (max (a * scaleFactor rw svgW) (c * scaleFactor rw svgW))
          (svgH - min (b * scaleFactor rh svgH) (d * scaleFactor rh svgH))
      else
        Box.mk (min (a * scaleFactor rw svgW) (c * scaleFactor rw svgW))
          (min (b * scaleFactor rh svgH) (d * scaleFactor rh svgH))
          (max (a * scaleFactor rw svgW) (c * scaleFactor rw svgW))
          (max (b * scaleFactor rh svgH) (d * scaleFactor rh svgH))))
    ∧ (∀ q : Rat, 0 < q → scaleFactor (some q) svgW = svgW / q)
    ∧ (∀ q : Rat, ¬ 0 < q → scaleFactor (some q) svgW = 1)
    ∧ scaleFactor none svgW = 1 := by
  refine ⟨?_, fun q hq => by simp [scaleFactor, hq], fun q hq => by simp [scaleFactor, hq], rfl⟩
  rw [mapBoxToSvg_minmax]
  rcases horigin with h | h <;> subst h
  · rw [if_neg (by simp [originTopLeft_pdf]), if_neg (by decide)]
  · rw [if_pos (by simp [originTopLeft_topleft]), if_pos rfl]

/-- C2 witness: the mapper at the raster-scaling example of the spec,
origin pdf, rasters 1000 by 2000 against a 100 by 200 viewBox. -/
theorem C2_mapBoxToSvg_witness :
    mapBoxToSvg ⟨some 100, some 200, some 300, some 400⟩ "pdf"
      (some 1000) (some 2000) 100 200 = ⟨10, 20, 30, 40⟩ := by
  have h := (C2_mapBoxToSvg 100 200 300 400 100 200 (some 1000) (some 2000) "pdf"
    (Or.inl rfl)).1
  rw [h, if_neg (by decide)]
  have hw : scaleFactor (some 1000) (100 : Rat) = 100 / 1000 := by
    simp [scaleFactor]
  have hh : scaleFactor (some 2000) (200 : Rat) = 200 / 2000 := by
    simp [scaleFactor]
  rw [hw, hh]
  have e1 : (100 : Rat) * (100 / 1000) = 10 := by norm_num
  have e2 : (300 : Rat) * (100 / 1000) = 30 := by norm_num
  have e3 : (200 : Rat) * (200 / 2000) = 20 := by norm_num
  have e4 : (400 : Rat) * (200 / 2000) = 40 := by norm_num
  rw [e1, e2, e3, e4]
  rw [min_eq_left (by norm_num), max_eq_right (by norm_num),
    min_eq_left (by norm_num), max_eq_right (by norm_num)]

/-- C10: for supplied coordinates the mapped rectangle is order-normalised
(`x1 ≤ x2`, `y1 ≤ y2`) for every origin, and the topleft flip translates
the Y interval without changing width or height relative to pdf. -/
theorem C10_mapBox_invariants (a b c d svgW svgH : Rat) (rw rh : Option Rat)
    (origin : String) (_hW : 0 < svgW) (_hH : 0 < svgH)
    (_hrw : ∀ q : Rat, rw = some q → 0 < q)
    (_hrh : ∀ q : Rat, rh = some q → 0 < q) :
    ((mapBoxToSvg ⟨some a, some b, some c, some d⟩ origin rw rh svgW svgH).x1 ≤
      (mapBoxToSvg ⟨some a, some b, some c, some d⟩ origin rw rh svgW svgH).x2
    ∧ (mapBoxToSvg ⟨some a, some b, some c, some d⟩ origin rw rh svgW svgH).y1 ≤
      (mapBoxToSvg ⟨some a, some b, some c, some d⟩ origin rw rh svgW svgH).y2)
    ∧ ((mapBoxToSvg ⟨some a, some b, some c, some d⟩ "topleft" rw rh svgW svgH).x2 -
        (mapBoxToSvg ⟨some a, some b, some c, some d⟩ "topleft" rw rh svgW svgH).x1 =
      (mapBoxToSvg ⟨some a, some b, some c, some d⟩ "pdf" rw rh svgW svgH).x2 -
        (mapBoxToSvg ⟨some a, some b, some c, some d⟩ "pdf" rw rh svgW svgH).x1)
    ∧ ((mapBoxToSvg ⟨some a, some b, some c, some d⟩ "topleft" rw rh svgW svgH).y2 -
        (mapBoxToSvg ⟨some a, some b, some c, some d⟩ "topleft" rw rh svgW svgH).y1 =
      (mapBoxToSvg ⟨some a, some b, some c, some d⟩ "pdf" rw rh svgW svgH).y2 -
        (mapBoxToSvg ⟨some a, some b, some c, some d⟩ "pdf" rw rh svgW svgH).y1) := by
  refine ⟨?_, ?_, ?_⟩
  · rw [mapBoxToSvg_minmax]
    split
    · exact ⟨min_le_max, sub_le_sub_left min_le_max svgH⟩
    · exact ⟨min_le_max, min_le_max⟩
  · rw [mapBoxToSvg_minmax, mapBoxToSvg_minmax,
      if_pos (by rw [originTopLeft_topleft]), if_neg (by simp [originTopLeft_pdf])]
  · rw [mapBoxToSvg_minmax, mapBoxToSvg_minmax,
      if_pos (by rw [originTopLeft_topleft]), if_neg (by simp [originTopLeft_pdf])]
    ring

/-- C10 witness at a concrete reversed box with raster scaling. -/
theorem C10_mapBox_invariants_witness :
    ((mapBoxToSvg ⟨some 8, some 9, some 2, some 3⟩ "topleft" (some 4) none 100 200).x1 ≤
      (mapBoxToSvg ⟨some 8, some 9, some 2, some 3⟩ "topleft" (some 4) none 100 200).x2
    ∧ (mapBoxToSvg ⟨some 8, some 9, some 2, some 3⟩ "topleft" (some 4) none 100 200).y1 ≤
      (mapBoxToSvg ⟨some 8, some 9, some 2, some 3⟩ "topleft" (some 4) none 100 200).y2)
    ∧ ((mapBoxToSvg ⟨some 8, some 9, some 2, some 3⟩ "topleft" (some 4) none 100 200).x2 -
        (mapBoxToSvg ⟨some 8, some 9, some 2, some 3⟩ "topleft" (some 4) none 100 200).x1 =
      (mapBoxToSvg ⟨some 8, some 9, some 2, some 3⟩ "pdf" (some 4) none 100 200).x2 -
        (mapBoxToSvg ⟨some 8, some 9, some 2, some 3⟩ "pdf" (some 4) none 100 200).x1)
    ∧ ((mapBoxToSvg ⟨some 8, some 9, some 2, some 3⟩ "topleft" (some 4) none 100 200).y2 -
        (mapBoxToSvg ⟨some 8, some 9, some 2, some 3⟩ "topleft" (some 4) none 100 200).y1 =
      (mapBoxToSvg ⟨some 8, some 9, some 2, some 3⟩ "pdf" (some 4) none 100 200).y2 -
        (mapBoxToSvg ⟨some 8, some 9, some 2, some 3⟩ "pdf" (some 4) none 100 200).y1) :=
  C10_mapBox_invariants 8 9 2 3 100 200 (some 4) none "topleft" (by norm_num)
    (by norm_num) (fun q hq => by cases hq; norm_num) (fun q hq => by cases hq)

/-- C5: page selection fails exactly when the 1-based page number is below
1 or above the page count, the error carries both numbers, and its message
is the route string `Page N out of range (has M)`, which mentions both. -/
theorem C5_selectPage (pages : List String) (page : Int) :
    ((∃ e, selectPage pages page = .error e) ↔
      (page < 1 ∨ (pages.length : Int) < page))
    ∧ (∀ e, selectPage pages page = .error e →
        e = .outOfRange page pages.length ∧
        ∃ s1 s2 s3, e.message =
          s1 ++ toString page ++ s2 ++ toString pages.length ++ s3) := by
  unfold selectPage
  by_cases h : page - 1 < 0 ∨ (pages.length : Int) ≤ page - 1
  · rw [if_pos h]
    refine ⟨⟨fun _ => by omega, fun _ => ⟨_, rfl⟩⟩, ?_⟩
    rintro e he
    cases he
    exact ⟨rfl, "Page ", " out of range (has ", ")", rfl⟩
  · rw [if_neg h]
    refine ⟨⟨?_, fun hc => absurd (by omega : page - 1 < 0 ∨ (pages.length : Int) ≤ page - 1) h⟩, ?_⟩
    · rintro ⟨e, he⟩
      cases he
    · rintro e he
      cases he

/-- C5 witness: selecting page 2 of a one-page document, as in the spec
test, produces the out-of-range error whose message mentions 2 and 1. -/
theorem C5_selectPage_witness :
    CropError.outOfRange 2 1 = .outOfRange 2 1 ∧
    ∃ s1 s2 s3, (CropError.outOfRange 2 1).message =
      s1 ++ toString (2 : Int) ++ s2 ++ toString (1 : Nat) ++ s3 :=
  (C5_selectPage ["pageA"] 2).2 (.outOfRange 2 1) rfl

/-- C4: the crop pipeline rejects the crop box with the coordinate
validation errors of the route exactly as claimed: a missing or non-finite
coordinate (both arrive as `none` through `toNum`) gives the
`Missing or invalid x1,y1,x2,y2` error; a supplied box whose width or
height is not positive gives the `Invalid crop box` error before any
scaling; a box that degenerates to zero width or height after scaling and
order normalisation gives the `zero width/height` crop error; and
`x1 = x2 = 50` is rejected with the `Invalid crop box` error for every
origin and every raster scaling. -/
theorem C4_invalid_crop (pages : List String) (page : Int)
    (x1 y1 x2 y2 : Option Rat) (origin : String) (rw rh : Option Rat) :
    ((x1 = none ∨ y1 = none ∨ x2 = none ∨ y2 = none) →
      processCrop pages page x1 y1 x2 y2 origin rw rh = .error .missingCoords)
    ∧ (∀ a b c d : Rat, x1 = some a → y1 = some b → x2 = some c → y2 = some d →
        (c ≤ a ∨ d ≤ b) →
        processCrop pages page x1 y1 x2 y2 origin rw rh = .error .invalidBox)
    ∧ (∀ a b c d : Rat, ∀ fullPage : String, ∀ vb : ViewBox,
        x1 = some a → y1 = some b → x2 = some c → y2 = some d →
        a < c → b < d →
        selectPage pages page = .ok fullPage →
        getViewBox fullPage = some vb →
        ((mapBoxToSvg ⟨some a, some b, some c, some d⟩ origin rw rh vb.width vb.height).x2
            - (mapBoxToSvg ⟨some a, some b, some c, some d⟩ origin rw rh vb.width vb.height).x1 = 0
          ∨ (mapBoxToSvg ⟨some a, some b, some c, some d⟩ origin rw rh vb.width vb.height).y2
            - (mapBoxToSvg ⟨some a, some b, some c, some d⟩ origin rw rh vb.width vb.height).y1 = 0) →
        processCrop pages page x1 y1 x2 y2 origin rw rh = .error .zeroBox)
    ∧ (∀ b d : Rat,
        processCrop pages page (some 50) (some b) (some 50) (some d) origin rw rh
          = .error .invalidBox) := by
  refine ⟨?_, ?_, ?_, ?_⟩
  · rintro (h | h | h | h) <;> subst h
    · cases y1 <;> cases x2 <;> cases y2 <;> rfl
    · cases x1 <;> cases x2 <;> cases y2 <;> rfl
    · cases x1 <;> cases y1 <;> cases y2 <;> rfl
    · cases x1 <;> cases y1 <;> cases x2 <;> rfl
  · rintro a b c d rfl rfl rfl rfl h
    simp only [processCrop]
    rw [if_neg]
    rintro ⟨h1, h2⟩
    rcases h with h | h
    · exact absurd h1 (not_lt.2 h)
    · exact absurd h2 (not_lt.2 h)
  · rintro a b c d fullPage vb rfl rfl rfl rfl hac hbd hsel hvb hzero
    simp only [processCrop]
    rw [if_pos ⟨hac, hbd⟩, hsel]
    simp only [hvb]
    have hcrop : cropSvgString fullPage
        (mapBoxToSvg ⟨some a, some b, some c, some d⟩ origin rw rh vb.width vb.height).x1
        (mapBoxToSvg ⟨some a, some b, some c, some d⟩ origin rw rh vb.width vb.height).y1
        (mapBoxToSvg ⟨some a, some b, some c, some d⟩ origin rw rh vb.width vb.height).x2
        (mapBoxToSvg ⟨some a, some b, some c, some d⟩ origin rw rh vb.width vb.height).y2
        = .error .zeroBox := by
      simp only [cropSvgString, hvb]
      rw [if_pos]
      rcases hzero with h | h
      · exact Or.inl (by rw [h]; exact max_self 0)
      · exact Or.inr (by rw [h]; exact max_self 0)
    rw [hcrop]
  · intro b d
    simp only [processCrop]
    rw [if_neg]
    rintro ⟨h1, _⟩
    exact absurd h1 (lt_irrefl 50)

/-- C4 witness: the zero-width box of the spec test (`x1 = x2 = 50`) is
rejected with the invalid-crop-box error under a topleft origin and raster
scaling. -/
theorem C4_invalid_crop_witness :
    processCrop ["<svg viewBox=\"0 0 100 200\">i</svg>"] 1
      (some 50) (some 0) (some 50) (some 1) "topleft" (some 3) none
      = .error .invalidBox :=
  (C4_invalid_crop ["<svg viewBox=\"0 0 100 200\">i</svg>"] 1
    (some 50) (some 0) (some 50) (some 1) "topleft" (some 3) none).2.2.2 0 1

/-- The happy path of the cropper: with a parseable viewBox, extractable
inner content and a nondegenerate rectangle, the output is exactly the
assembled template of the source. -/
theorem cropSvgString_ok (page : String) (vb : ViewBox) (inner : String)
    (x1 y1 x2 y2 : Rat) (hvb : getViewBox page = some vb)
    (hinner : extractInnerSvg (stripXmlDecl page) = some inner)
    (hx : x1 < x2) (hy : y1 < y2) :
    cropSvgString page x1 y1 x2 y2 = .ok
      ("<svg " ++ nsAttrString (parseRootAttrs (stripXmlDecl page)) ++ " viewBox=\"0 0 "
        ++ numStr (x2 - x1) ++ " " ++ numStr (y2 - y1)
        ++ "\" preserveAspectRatio=\"xMidYMid meet\">"
        ++ "<g transform=\"translate(" ++ numStr (-(vb.minX + x1)) ++ ","
        ++ numStr (-(vb.minY + y1)) ++ ")\">"
        ++ inner ++ "</g></svg>") := by
  have hw : max 0 (x2 - x1) = x2 - x1 := max_eq_right (by linarith)
  have hh : max 0 (y2 - y1) = y2 - y1 := max_eq_right (by linarith)
  simp only [cropSvgString, hvb, hinner, hw, hh]
  rw [if_neg]
  rintro (h | h)
  · exact absurd h (sub_ne_zero.2 hx.ne')
  · exact absurd h (sub_ne_zero.2 hy.ne')

/-- C3: for a valid page and a mapped rectangle with positive extent, the
cropper succeeds and produces exactly the template
`<svg {ns attrs} viewBox="0 0 w h" preserveAspectRatio="xMidYMid meet">`
`<g transform="translate(dx,dy)">{inner}</g></svg>` with `w = x2 - x1`,
`h = y2 - y1` and the inner markup of the source page included unmodified. -/
theorem C3_crop_output (page : String) (vb : ViewBox) (inner : String)
    (x1 y1 x2 y2 : Rat) (hvb : getViewBox page = some vb)
    (hinner : extractInnerSvg (stripXmlDecl page) = some inner)
    (hx : x1 < x2) (hy : y1 < y2) :
    cropSvgString page x1 y1 x2 y2 = .ok
      ("<svg " ++ nsAttrString (parseRootAttrs (stripXmlDecl page)) ++ " viewBox=\"0 0 "
        ++ numStr (x2 - x1) ++ " " ++ numStr (y2 - y1)
        ++ "\" preserveAspectRatio=\"xMidYMid meet\">"
        ++ "<g transform=\"translate(" ++ numStr (-(vb.minX + x1)) ++ ","
        ++ numStr (-(vb.minY + y1)) ++ ")\">"
        ++ inner ++ "</g></svg>") :=
  cropSvgString_ok page vb inner x1 y1 x2 y2 hvb hinner hx hy

/-- A concrete page with a negative viewBox origin, from the spec test for
the minX/minY correction. -/
def pageEx : String := "<svg viewBox=\"-20 -30 100 200\">inner</svg>"

/-- C3 witness: the full cropped document for `pageEx` and the rectangle
(10,10,50,60), evaluated to a literal. -/
theorem C3_crop_output_witness :
    cropSvgString pageEx 10 10 50 60 = .ok
      ("<svg xmlns=\"http://www.w3.org/2000/svg\" xmlns:xlink=\"http://www.w3.org/1999/xlink\""
        ++ " xml:space=\"preserve\" viewBox=\"0 0 40 50\" preserveAspectRatio=\"xMidYMid meet\">"
        ++ "<g transform=\"translate(10,20)\">inner</g></svg>") := by
  have h := C3_crop_output pageEx ⟨-20, -30, 100, 200⟩ "inner" 10 10 50 60
    (by decide) (by decide) (by norm_num) (by norm_num)
  rw [h]
  have e1 : (50 : Rat) - 10 = 40 := by norm_num
  have e2 : (60 : Rat) - 10 = 50 := by norm_num
  have e3 : -((⟨-20, -30, 100, 200⟩ : ViewBox).minX + 10) = (10 : Rat) := by norm_num
  have e4 : -((⟨-20, -30, 100, 200⟩ : ViewBox).minY + 10) = (20 : Rat) := by norm_num
  rw [e1, e2, e3, e4]
  congr 1

/-- C1: the translation written by the cropper into the output group is
exactly `dx = -(minX + x1)`, `dy = -(minY + y1)`, the viewBox-origin
corrected offset. -/
theorem C1_translation (page : String) (vb : ViewBox) (inner : String)
    (x1 y1 x2 y2 : Rat) (hvb : getViewBox page = some vb)
    (hinner : extractInnerSvg (stripXmlDecl page) = some inner)
    (hx : x1 < x2) (hy : y1 < y2) :
    ∃ pre post, cropSvgString page x1 y1 x2 y2 =
      .ok (pre ++ ("<g transform=\"translate(" ++ numStr (-(vb.minX + x1)) ++ ","
        ++ numStr (-(vb.minY + y1)) ++ ")\">") ++ post) := by
  refine ⟨"<svg " ++ nsAttrString (parseRootAttrs (stripXmlDecl page)) ++ " viewBox=\"0 0 "
    ++ numStr (x2 - x1) ++ " " ++ numStr (y2 - y1)
    ++ "\" preserveAspectRatio=\"xMidYMid meet\">", inner ++ "</g></svg>", ?_⟩
  rw [cropSvgString_ok page vb inner x1 y1 x2 y2 hvb hinner hx hy]
  simp only [String.append_assoc]

/-- C1 witness: for the page with viewBox `-20 -30 100 200` and the
pdf-origin rectangle (10,10,50,60) the emitted translation is `(10,20)`. -/
theorem C1_translation_witness :
    ∃ pre post, cropSvgString pageEx 10 10 50 60 =
      .ok (pre ++ ("<g transform=\"translate(" ++ "10" ++ "," ++ "20" ++ ")\">") ++ post) := by
  have h := C1_translation pageEx ⟨-20, -30, 100, 200⟩ "inner" 10 10 50 60
    (by decide) (by decide) (by norm_num) (by norm_num)
  have e3 : -((⟨-20, -30, 100, 200⟩ : ViewBox).minX + 10) = (10 : Rat) := by norm_num
  have e4 : -((⟨-20, -30, 100, 200⟩ : ViewBox).minY + 10) = (20 : Rat) := by norm_num
  rw [e3, e4, show numStr (10 : Rat) = "10" from rfl,
    show numStr (20 : Rat) = "20" from rfl] at h
  exact h

/-- C6 counterexample: `parseViewBox` does not require any `<svg>` element
(first conjunct: a string with no svg tag still parses a viewBox), and on
nested `<svg>` content the inner extraction stops at the first closing tag
rather than the matching one (last conjuncts); also, on a string with
neither tag nor viewBox the cropper fails with the viewBox error, not the
malformed-svg error. -/
theorem C6_counterexample :
    getViewBox "no svg here viewBox=\"0 0 1 1\"" = some ⟨0, 0, 1, 1⟩
    ∧ extractInnerSvg "no svg here viewBox=\"0 0 1 1\"" = none
    ∧ cropSvgString "hello" 0 0 1 1 = .error .noViewBoxCrop
    ∧ extractInnerSvg "<svg><svg>a</svg>b</svg>" = some "<svg>a"
    ∧ (some "<svg>a" : Option String) ≠ some "<svg>a</svg>b" :=
  ⟨by decide, by decide, rfl, by decide, by decide⟩

/-- C6 amended: when the stripped page has no `<svg ...>` opening tag
followed by a `</svg>` closing tag the inner extraction fails and, provided
a viewBox is parseable and the rectangle is nondegenerate, the cropper
fails with the malformed-svg error; when the viewBox is unparseable the
cropper fails with the viewBox error first; the extracted inner markup runs
to the first subsequent closing tag, not the matching one. -/
theorem C6_malformed (s : String) (x1 y1 x2 y2 : Rat) :
    (getViewBox s = none → cropSvgString s x1 y1 x2 y2 = .error .noViewBoxCrop)
    ∧ (∀ vb : ViewBox, getViewBox s = some vb → x1 < x2 → y1 < y2 →
        extractInnerSvg (stripXmlDecl s) = none →
        cropSvgString s x1 y1 x2 y2 = .error .malformedSvg)
    ∧ extractInnerSvg "<svg><svg>a</svg>b</svg>" = some "<svg>a"
    ∧ extractInnerSvg "hello" = none := by
  refine ⟨?_, ?_, by decide, by decide⟩
  · intro h
    simp only [cropSvgString, h]
  · intro vb hvb hx hy hinner
    have hw : max 0 (x2 - x1) = x2 - x1 := max_eq_right (by linarith)
    have hh : max 0 (y2 - y1) = y2 - y1 := max_eq_right (by linarith)
    simp only [cropSvgString, hvb, hinner, hw, hh]
    rw [if_neg]
    rintro (h | h)
    · exact absurd h (sub_ne_zero.2 hx.ne')
    · exact absurd h (sub_ne_zero.2 hy.ne')

/-- C6 witness: a string carrying viewBox text but no svg tag pair makes
the cropper fail with the malformed-svg error. -/
theorem C6_malformed_witness :
    cropSvgString "viewBox=\"0 0 9 9\" but no tag" 0 0 1 1 = .error .malformedSvg :=
  (C6_malformed "viewBox=\"0 0 9 9\" but no tag" 0 0 1 1).2.1 ⟨0, 0, 9, 9⟩
    (by decide) (by norm_num) (by norm_num) (by decide)

/-! ## Attribute-map lemmas for the namespace claims -/

/-- The attribute names of an attribute list. -/
def keys (l : List (String × String)) : List String := l.map Prod.fst

theorem mem_keys_of_mem {l : List (String × String)} {p : String × String}
    (h : p ∈ l) : p.1 ∈ keys l :=
  List.mem_map_of_mem Prod.fst h

theorem keys_append_single (l : List (String × String)) (x : String × String) :
    keys (l ++ [x]) = keys l ++ [x.1] := by
  unfold keys
  rw [List.map_append]
  rfl

theorem keys_map_upsert (l : List (String × String)) (k v : String) :
    keys (l.map fun p => if p.1 = k then (p.1, v) else p) = keys l := by
  unfold keys
  rw [List.map_map]
  apply List.map_congr_left
  intro a _
  by_cases h : a.1 = k <;> simp [Function.comp, h]

theorem not_mem_keys_of_find?_eq_none {l : List (String × String)} {k : String}
    (h : (l.find? (fun p => p.1 = k)) = none) : k ∉ keys l := by
  intro hmem
  rcases List.mem_map.1 hmem with ⟨p, hp, hpk⟩
  have := List.find?_eq_none.1 h p hp
  simp [hpk] at this

theorem keys_jsUpsert_nodup (l : List (String × String)) (k v : String)
    (h : (keys l).Nodup) : (keys (jsUpsert l k v)).Nodup := by
  unfold jsUpsert
  split
  · rw [keys_map_upsert]
    exact h
  · next hfind =>
    have hk : k ∉ keys l :=
      not_mem_keys_of_find?_eq_none (Option.not_isSome_iff_eq_none.1 hfind)
    rw [keys_append_single]
    exact List.Nodup.append h (List.nodup_singleton k)
      (List.disjoint_singleton.2 hk)

theorem mem_jsUpsert_self (l : List (String × String)) (k v : String) :
    (k, v) ∈ jsUpsert l k v := by
  unfold jsUpsert
  split
  · next hfind =>
    rcases Option.isSome_iff_exists.1 hfind with ⟨p, hp⟩
    have hmem := List.mem_of_find?_eq_some hp
    have hpk : p.1 = k := by simpa using List.find?_some hp
    have he : (fun p : String × String => if p.1 = k then (p.1, v) else p) p = (k, v) := by
      simp [hpk]
    exact he ▸ List.mem_map_of_mem _ hmem
  · exact List.mem_append_right l (List.mem_singleton.2 rfl)

theorem mem_jsUpsert_of_ne (l : List (String × String)) (k v : String)
    (q : String × String) (hq : q ∈ l) (hne : q.1 ≠ k) : q ∈ jsUpsert l k v := by
  unfold jsUpsert
  split
  · have he : (fun p : String × String => if p.1 = k then (p.1, v) else p) q = q := by
      simp [hne]
    exact he ▸ List.mem_map_of_mem _ hq
  · exact List.mem_append_left _ hq

theorem mem_of_mem_jsUpsert (l : List (String × String)) (k v : String)
    (q : String × String) (hq : q ∈ jsUpsert l k v) : q ∈ l ∨ q = (k, v) := by
  unfold jsUpsert at hq
  split at hq
  · rcases List.mem_map.1 hq with ⟨p, hp, hpq⟩
    by_cases hk : p.1 = k
    · right
      rw [← hpq, if_pos hk, hk]
    · left
      rw [if_neg hk] at hpq
      exact hpq ▸ hp
  · rcases List.mem_append.1 hq with h | h
    · exact Or.inl h
    · exact Or.inr (List.mem_singleton.1 h)

theorem jsAbsent_of_not_mem_keys (l : List (String × String)) (k : String)
    (h : k ∉ keys l) : jsAbsent l k = true := by
  unfold jsAbsent
  have hf : l.find? (fun p => p.1 = k) = none := by
    rw [List.find?_eq_none]
    intro p hp
    simp only [decide_eq_true_eq]
    exact fun he => h (he ▸ mem_keys_of_mem hp)
  rw [hf]

theorem keys_nsStep_nodup (m : List (String × String)) (p : String × String)
    (h : (keys m).Nodup) : (keys (nsStep m p)).Nodup := by
  unfold nsStep
  split
  · exact keys_jsUpsert_nodup m p.1 p.2 h
  · exact h

theorem mem_nsStep_self (m : List (String × String)) (p : String × String)
    (hfil : nsFilter p.1 = true) (habs : jsAbsent m p.1 = true) : p ∈ nsStep m p := by
  unfold nsStep
  rw [if_pos (by rw [hfil, habs]; rfl)]
  have h := mem_jsUpsert_self m p.1 p.2
  rwa [Prod.mk.eta] at h

theorem mem_nsStep_of_ne (m : List (String × String)) (p q : String × String)
    (hq : q ∈ m) (hne : q.1 ≠ p.1) : q ∈ nsStep m p := by
  unfold nsStep
  split
  · exact mem_jsUpsert_of_ne m p.1 p.2 q hq hne
  · exact hq

theorem mem_of_mem_nsStep (m : List (String × String)) (p q : String × String)
    (hq : q ∈ nsStep m p) : q ∈ m ∨ (q = p ∧ nsFilter p.1 = true) := by
  unfold nsStep at hq
  split at hq
  · next hcond =>
    rw [Bool.and_eq_true] at hcond
    rcases mem_of_mem_jsUpsert m p.1 p.2 q hq with h | h
    · exact Or.inl h
    · exact Or.inr ⟨by rw [h, Prod.mk.eta], hcond.1⟩
  · exact Or.inl hq

theorem key_of_mem_nsStep (m : List (String × String)) (p : String × String)
    (k : String) (hk : k ∈ keys (nsStep m p)) : k ∈ keys m ∨ k = p.1 := by
  rcases List.mem_map.1 hk with ⟨q, hq, hqk⟩
  rcases mem_of_mem_nsStep m p q hq with h | ⟨h, _⟩
  · exact Or.inl (hqk ▸ mem_keys_of_mem h)
  · exact Or.inr (by rw [← hqk, h])

theorem keys_foldl_nsStep_nodup (l m : List (String × String))
    (h : (keys m).Nodup) : (keys (l.foldl nsStep m)).Nodup := by
  induction l generalizing m with
  | nil => exact h
  | cons p t ih => exact ih (nsStep m p) (keys_nsStep_nodup m p h)

theorem mem_foldl_nsStep (l m : List (String × String)) (q : String × String)
    (hq : q ∈ l.foldl nsStep m) :
    q ∈ m ∨ (q ∈ l ∧ nsFilter q.1 = true) := by
  induction l generalizing m with
  | nil => exact Or.inl hq
  | cons p t ih =>
    rcases ih (nsStep m p) hq with h | ⟨h1, h2⟩
    · rcases mem_of_mem_nsStep m p q h with h' | ⟨h', hf⟩
      · exact Or.inl h'
      · refine Or.inr ⟨by rw [h']; exact List.mem_cons_self p t, by rw [h']; exact hf⟩
    · exact Or.inr ⟨List.mem_cons_of_mem p h1, h2⟩

theorem mem_foldl_nsStep_of_mem (l m : List (String × String)) (q : String × String)
    (hq : q ∈ m) (hne : ∀ p ∈ l, q.1 ≠ p.1) : q ∈ l.foldl nsStep m := by
  induction l generalizing m with
  | nil => exact hq
  | cons p t ih =>
    exact ih (nsStep m p)
      (mem_nsStep_of_ne m p q hq (hne p (List.mem_cons_self p t)))
      (fun p' hp' => hne p' (List.mem_cons_of_mem p hp'))

theorem foldl_nsStep_attains (l : List (String × String)) (q : String × String)
    (hq : q ∈ l) (hfil : nsFilter q.1 = true) (hnd : (keys l).Nodup) :
    ∀ m : List (String × String), q.1 ∉ keys m → q ∈ l.foldl nsStep m := by
  induction l with
  | nil => cases hq
  | cons p t ih =>
    intro m habs
    have hnd2 : (p.1 :: keys t).Nodup := hnd
    have hnd' := List.nodup_cons.1 hnd2
    rcases List.mem_cons.1 hq with rfl | hq'
    · have hstep : q ∈ nsStep m q :=
        mem_nsStep_self m q hfil (jsAbsent_of_not_mem_keys m q.1 habs)
      exact mem_foldl_nsStep_of_mem t (nsStep m q) q hstep
        (fun p' hp' he => hnd'.1 (he ▸ mem_keys_of_mem hp'))
    · refine ih hq' hnd'.2 (nsStep m p) ?_
      intro hmem
      rcases key_of_mem_nsStep m p q.1 hmem with h | h
      · exact habs h
      · exact hnd'.1 (h ▸ mem_keys_of_mem hq')

/-- The pair of namespace declarations the cropper always starts from. -/
def nsDefaults : List (String × String) := [("xmlns", svgNS), ("xmlns:xlink", xlinkNS)]

theorem jsAbsent_defaults_xmlns (rest : List (String × String)) :
    jsAbsent (nsDefaults ++ rest) "xmlns" = false := by
  unfold jsAbsent
  rw [show nsDefaults ++ rest =
    ("xmlns", svgNS) :: (("xmlns:xlink", xlinkNS) :: rest) from rfl]
  rw [List.find?_cons_of_pos _ (by simp)]
  simp [svgNS]

theorem jsAbsent_defaults_xlink (rest : List (String × String)) :
    jsAbsent (nsDefaults ++ rest) "xmlns:xlink" = false := by
  unfold jsAbsent
  rw [show nsDefaults ++ rest =
    ("xmlns", svgNS) :: (("xmlns:xlink", xlinkNS) :: rest) from rfl]
  rw [List.find?_cons_of_neg _ (by simp), List.find?_cons_of_pos _ (by simp)]
  simp [xlinkNS]

theorem nsStep_defaults_head (m rest : List (String × String)) (p : String × String)
    (hm : m = nsDefaults ++ rest) :
    ∃ rest2, nsStep m p = nsDefaults ++ rest2 := by
  unfold nsStep
  split
  · next hcond =>
    rw [Bool.and_eq_true] at hcond
    have habs := hcond.2
    have hk1 : p.1 ≠ "xmlns" := by
      intro he
      rw [hm, he, jsAbsent_defaults_xmlns] at habs
      cases habs
    have hk2 : p.1 ≠ "xmlns:xlink" := by
      intro he
      rw [hm, he, jsAbsent_defaults_xlink] at habs
      cases habs
    unfold jsUpsert
    split
    · refine ⟨rest.map fun q => if q.1 = p.1 then (q.1, p.2) else q, ?_⟩
      rw [hm]
      rw [show nsDefaults ++ rest =
        ("xmlns", svgNS) :: (("xmlns:xlink", xlinkNS) :: rest) from rfl]
      rw [List.map_cons, List.map_cons]
      rw [if_neg (by simpa using Ne.symm hk1), if_neg (by simpa using Ne.symm hk2)]
      rfl
    · exact ⟨rest ++ [(p.1, p.2)], by rw [hm, List.append_assoc]⟩
  · exact ⟨rest, hm⟩

theorem foldl_nsStep_defaults_head (l : List (String × String)) :
    ∀ m rest : List (String × String), m = nsDefaults ++ rest →
    ∃ rest2, l.foldl nsStep m = nsDefaults ++ rest2 := by
  induction l with
  | nil => exact fun m rest hm => ⟨rest, hm⟩
  | cons p t ih =>
    intro m rest hm
    rcases nsStep_defaults_head m rest p hm with ⟨rest2, h2⟩
    exact ih (nsStep m p) rest2 h2

theorem buildNs_defaults_head (attrs : List (String × String)) :
    ∃ rest, buildNs attrs = nsDefaults ++ rest := by
  rcases foldl_nsStep_defaults_head attrs nsDefaults [] (by rw [List.append_nil]) with
    ⟨rest2, h2⟩
  unfold buildNs
  dsimp only
  rw [show attrs.foldl nsStep [("xmlns", svgNS), ("xmlns:xlink", xlinkNS)] =
    nsDefaults ++ rest2 from h2]
  split
  · exact ⟨rest2, rfl⟩
  · exact ⟨rest2 ++ [("xml:space", "preserve")], by rw [List.append_assoc]⟩

theorem buildNs_keys_nodup (attrs : List (String × String)) :
    (keys (buildNs attrs)).Nodup := by
  unfold buildNs
  dsimp only
  have h0 : (keys (attrs.foldl nsStep
      [("xmlns", svgNS), ("xmlns:xlink", xlinkNS)])).Nodup :=
    keys_foldl_nsStep_nodup attrs _ (by decide)
  split
  · exact h0
  · next hfind =>
    have hk : "xml:space" ∉ keys (attrs.foldl nsStep
        [("xmlns", svgNS), ("xmlns:xlink", xlinkNS)]) :=
      not_mem_keys_of_find?_eq_none (Option.not_isSome_iff_eq_none.1 hfind)
    rw [keys_append_single]
    exact List.Nodup.append h0 (List.nodup_singleton _)
      (List.disjoint_singleton.2 hk)


theorem keys_foldl_jsUpsert_nodup (l : List (String × String)) :
    ∀ m, (keys m).Nodup →
      (keys (l.foldl (fun m p => jsUpsert m p.1 p.2) m)).Nodup := by
  induction l with
  | nil => exact fun _ h => h
  | cons p t ih =>
    exact fun m h => ih (jsUpsert m p.1 p.2) (keys_jsUpsert_nodup m p.1 p.2 h)

theorem parseRootAttrs_keys_nodup (s : String) :
    (keys (parseRootAttrs s)).Nodup := by
  unfold parseRootAttrs parseRootAttrsL
  split
  · exact List.nodup_nil
  · exact keys_foldl_jsUpsert_nodup _ [] List.nodup_nil

theorem countP_key_of_nodup (l : List (String × String)) (k v : String)
    (hnd : (keys l).Nodup) (hmem : (k, v) ∈ l) :
    l.countP (fun p => p.1 = k) = 1 := by
  induction l with
  | nil => cases hmem
  | cons q t ih =>
    have hnd2 : (q.1 :: keys t).Nodup := hnd
    have hnd' := List.nodup_cons.1 hnd2
    rcases List.mem_cons.1 hmem with he | hmem'
    · have hqk : q.1 = k := by rw [← he]
      have hz : t.countP (fun p => p.1 = k) = 0 := by
        rw [List.countP_eq_zero]
        intro p hp
        simp only [decide_eq_true_eq]
        intro hpk
        exact hnd'.1 (by rw [hqk]; exact hpk ▸ mem_keys_of_mem hp)
      rw [List.countP_cons, hz, if_pos (by simp [hqk])]
    · have hne : q.1 ≠ k := fun hpk => hnd'.1 (hpk ▸ mem_keys_of_mem hmem')
      rw [List.countP_cons, if_neg (by simp [hne]), ih hnd'.2 hmem']

/-- A page that declares a custom xlink namespace, a source value for
xml:space, and a duplicated xml:lang attribute. -/
def pageC7 : String :=
  "<svg xmlns:xlink=\"http://custom\" xml:space=\"default\" xml:lang=\"a\" xml:lang=\"b\" viewBox=\"0 0 10 10\">x</svg>"

/-- C7 counterexample: on `pageC7` the cropper emits the default xlink
namespace (the custom source declaration does not override it), keeps the
source xml:space value rather than forcing `preserve`, and resolves the
duplicated xml:lang to its last value, not its first. -/
theorem C7_counterexample :
    outputNs pageC7 =
      [("xmlns", "http://www.w3.org/2000/svg"),
       ("xmlns:xlink", "http://www.w3.org/1999/xlink"),
       ("xml:space", "default"),
       ("xml:lang", "b")]
    ∧ ("xmlns:xlink", "http://custom") ∉ outputNs pageC7
    ∧ ("xml:space", "preserve") ∉ outputNs pageC7
    ∧ ("xml:lang", "a") ∉ outputNs pageC7 := by
  refine ⟨by decide, by decide, by decide, by decide⟩

/-- C7 (amended): the output attribute list always begins with the two
default namespace declarations, which source declarations of the same name
do not override; an xml:space attribute is always present, with value
`preserve` when the source root declares none; every other retained
attribute is a source root attribute passing the xmlns/xmlns:*/xml:*
filter, with source-internal duplicates resolved to the last value. -/
theorem C7_ns_attrs (page : String) :
    (∃ rest, outputNs page = [("xmlns", svgNS), ("xmlns:xlink", xlinkNS)] ++ rest)
    ∧ (∃ v, ("xml:space", v) ∈ outputNs page ∧
        ((parseRootAttrs (stripXmlDecl page)).find? (fun p => p.1 = "xml:space") = none →
          v = "preserve"))
    ∧ (∀ q ∈ outputNs page,
        q = ("xmlns", svgNS) ∨ q = ("xmlns:xlink", xlinkNS)
        ∨ q = ("xml:space", "preserve")
        ∨ (q ∈ parseRootAttrs (stripXmlDecl page) ∧ nsFilter q.1 = true))
    ∧ (∀ q ∈ parseRootAttrs (stripXmlDecl page), nsFilter q.1 = true →
        q.1 ≠ "xmlns" → q.1 ≠ "xmlns:xlink" → q ∈ outputNs page) := by
  refine ⟨buildNs_defaults_head _, ?_, ?_, ?_⟩
  · unfold outputNs buildNs
    dsimp only
    split
    · next hfind =>
      rcases Option.isSome_iff_exists.1 hfind with ⟨q0, hq0⟩
      have hmem := List.mem_of_find?_eq_some hq0
      have hk : q0.1 = "xml:space" := by simpa using List.find?_some hq0
      refine ⟨q0.2, ?_, ?_⟩
      · have he : ("xml:space", q0.2) = q0 := by rw [← hk]
        exact he ▸ hmem
      · intro hnone
        rcases mem_foldl_nsStep _ _ q0 hmem with h | ⟨h, _⟩
        · rcases List.mem_cons.1 h with h | h
          · exact absurd hk (by rw [h]; decide)
          · rcases List.mem_cons.1 h with h | h
            · exact absurd hk (by rw [h]; decide)
            · cases h
        · have := List.find?_eq_none.1 hnone q0 h
          simp [hk] at this
    · exact ⟨"preserve", List.mem_append_right _ (List.mem_singleton.2 rfl),
        fun _ => rfl⟩
  · intro q hq
    unfold outputNs buildNs at hq
    dsimp only at hq
    have hsplit : q ∈ (parseRootAttrs (stripXmlDecl page)).foldl nsStep
        [("xmlns", svgNS), ("xmlns:xlink", xlinkNS)]
        ∨ q = ("xml:space", "preserve") := by
      split at hq
      · exact Or.inl hq
      · rcases List.mem_append.1 hq with h | h
        · exact Or.inl h
        · exact Or.inr (List.mem_singleton.1 h)
    rcases hsplit with h | h
    · rcases mem_foldl_nsStep _ _ q h with h | ⟨h1, h2⟩
      · rcases List.mem_cons.1 h with h | h
        · exact Or.inl h
        · rcases List.mem_cons.1 h with h | h
          · exact Or.inr (Or.inl h)
          · cases h
      · exact Or.inr (Or.inr (Or.inr ⟨h1, h2⟩))
    · exact Or.inr (Or.inr (Or.inl h))
  · intro q hq hfil hne1 hne2
    have hin := foldl_nsStep_attains (parseRootAttrs (stripXmlDecl page)) q hq hfil
      (parseRootAttrs_keys_nodup _)
      [("xmlns", svgNS), ("xmlns:xlink", xlinkNS)]
      (by
        intro h
        rcases List.mem_cons.1 h with h | h
        · exact hne1 h
        · rcases List.mem_cons.1 h with h | h
          · exact hne2 h
          · cases h)
    unfold outputNs buildNs
    dsimp only
    split
    · exact hin
    · exact List.mem_append_left _ hin

/-- C7 witness: the amended theorem applied to `pageC7`; the source
xml:space value survives and the custom xlink declaration is dropped. -/
theorem C7_ns_attrs_witness :
    ∃ rest, outputNs pageC7 = [("xmlns", svgNS), ("xmlns:xlink", xlinkNS)] ++ rest :=
  (C7_ns_attrs pageC7).1

/-- C8: namespace injection is idempotent: when the source root already
declares xmlns:xlink, the output attribute list carries the xmlns:xlink
name exactly once. -/
theorem C8_xlink_once (page : String)
    (_halready : ∃ v, ("xmlns:xlink", v) ∈ parseRootAttrs (stripXmlDecl page)) :
    (outputNs page).countP (fun p => p.1 = "xmlns:xlink") = 1 := by
  have hnd : (keys (outputNs page)).Nodup := buildNs_keys_nodup _
  rcases buildNs_defaults_head (parseRootAttrs (stripXmlDecl page)) with ⟨rest, hb⟩
  have hmem : ("xmlns:xlink", xlinkNS) ∈ outputNs page := by
    rw [show outputNs page = buildNs (parseRootAttrs (stripXmlDecl page)) from rfl, hb]
    exact List.mem_append_left _ (by simp [nsDefaults])
  exact countP_key_of_nodup (outputNs page) "xmlns:xlink" xlinkNS hnd hmem

/-- C8 witness: a page already declaring xmlns:xlink yields exactly one
xmlns:xlink attribute in the output. -/
theorem C8_xlink_once_witness :
    (outputNs "<svg xmlns:xlink=\"http://www.w3.org/1999/xlink\">x</svg>").countP
      (fun p => p.1 = "xmlns:xlink") = 1 :=
  C8_xlink_once "<svg xmlns:xlink=\"http://www.w3.org/1999/xlink\">x</svg>"
    ⟨"http://www.w3.org/1999/xlink", by decide⟩


/-! ## viewBox parsing lemmas -/

theorem scanUDec_nonneg (s : List Char) (q : Rat) (r : List Char)
    (h : scanUDec s = some (q, r)) : 0 ≤ q := by
  unfold scanUDec at h
  split at h
  · cases h
  · split at h
    · split at h
      · simp only [Option.some.injEq, Prod.mk.injEq] at h
        rw [← h.1]
        positivity
      · simp only [Option.some.injEq, Prod.mk.injEq] at h
        rw [← h.1]
        positivity
    · simp only [Option.some.injEq, Prod.mk.injEq] at h
      rw [← h.1]
      positivity

theorem tryViewBoxTail_nonneg (s : List Char) (vb : ViewBox)
    (h : tryViewBoxTail s = some vb) : 0 ≤ vb.width ∧ 0 ≤ vb.height := by
  simp only [tryViewBoxTail, Option.bind_eq_bind, Option.bind_eq_some] at h
  obtain ⟨s2, h1, s4, h2, ⟨minX, r1⟩, h3, r2, h4, ⟨minY, r3⟩, h5, r4, h6,
    ⟨w, r5⟩, h7, r6, h8, ⟨hgt, r9⟩, h9, h10⟩ := h
  cases h10
  exact ⟨scanUDec_nonneg _ _ _ h7, scanUDec_nonneg _ _ _ h9⟩

theorem getViewBoxAux_nonneg (s : List Char) :
    ∀ vb, getViewBoxAux s = some vb → 0 ≤ vb.width ∧ 0 ≤ vb.height := by
  induction s with
  | nil => intro vb h; cases h
  | cons c rest ih =>
    intro vb h
    unfold getViewBoxAux at h
    split at h
    · next heq =>
      cases h
      rcases Option.bind_eq_some.1 heq with ⟨r, _, htail⟩
      exact tryViewBoxTail_nonneg r vb htail
    · exact ih vb h

/-- C9 counterexample: `getViewBox` takes the first parseable viewBox text
anywhere in the string: it reads the viewBox of a nested `<svg>` element
when the root has none, and even parses a viewBox outside any svg tag. -/
theorem C9_counterexample :
    getViewBox "<svg><g><svg viewBox=\"1 2 3 4\"></svg></g></svg>" = some ⟨1, 2, 3, 4⟩
    ∧ getViewBox "hello viewBox=\"1 2 3 4\" bye" = some ⟨1, 2, 3, 4⟩ :=
  ⟨by decide, by decide⟩

/-- C9 (amended): `getViewBox` parses the first occurrence of viewBox
attribute text anywhere in the document: the root viewBox wins when
declared (it occurs first), otherwise a nested viewBox is used; integers
and decimals are accepted, minX and minY may be negative but width and
height are unsigned (hence nonnegative); unparseable or absent viewBox
text yields `none` rather than an exception. -/
theorem C9_first_viewbox :
    (∀ (s : String) (vb : ViewBox), getViewBox s = some vb →
      0 ≤ vb.width ∧ 0 ≤ vb.height)
    ∧ getViewBox "<svg viewBox=\"0 0 640 480\"><svg viewBox=\"1 2 3 4\"></svg></svg>"
        = some ⟨0, 0, 640, 480⟩
    ∧ getViewBox "<svg><svg viewBox=\"1 2 3 4\"></svg></svg>" = some ⟨1, 2, 3, 4⟩
    ∧ getViewBox "<svg viewBox=\"-20 -30 100 200\">x</svg>" = some ⟨-20, -30, 100, 200⟩
    ∧ (∃ vb : ViewBox, getViewBox "<svg viewBox=\"0.5 -1.25 10.5 20\">x</svg>" = some vb
        ∧ vb.minX = 1/2 ∧ vb.minY = -5/4 ∧ vb.width = 21/2 ∧ vb.height = 20)
    ∧ getViewBox "<svg width=\"10\"></svg>" = none
    ∧ getViewBox "<svg viewBox=\"a b c d\"></svg>" = none
    ∧ getViewBox "<svg viewBox=\"0 0 -5 5\"></svg>" = none := by
  refine ⟨fun s vb h => getViewBoxAux_nonneg s.toList vb h,
    by decide, by decide, by decide, ?_, by decide, by decide, by decide⟩
  refine ⟨_, rfl, ?_, ?_, ?_, ?_⟩
  · show ((0 : Nat) : Rat) + ((5 : Nat) : Rat) / 10 ^ (1 : Nat) = 1 / 2
    norm_num
  · show -(((1 : Nat) : Rat) + ((25 : Nat) : Rat) / 10 ^ (2 : Nat)) = -5 / 4
    norm_num
  · show ((10 : Nat) : Rat) + ((5 : Nat) : Rat) / 10 ^ (1 : Nat) = 21 / 2
    norm_num
  · show ((20 : Nat) : Rat) = 20
    norm_num

/-- C9 witness: the nonnegativity consequence at a concrete parsed page. -/
theorem C9_first_viewbox_witness :
    (0 : Rat) ≤ (⟨0, 0, 640, 480⟩ : ViewBox).width
    ∧ (0 : Rat) ≤ (⟨0, 0, 640, 480⟩ : ViewBox).height :=
  C9_first_viewbox.1 "<svg viewBox=\"0 0 640 480\"></svg>" ⟨0, 0, 640, 480⟩ (by decide)

end PdfArt
